import Mathlib

/-!
Shallow embedding of the kinematic-chain node core (`src/node.rs` of the `k`
crate) for claim verification.

All scalar values generic over the crate's `T: Real` parameter are
instantiated at `ℚ` (exact arithmetic; the nalgebra `Real` trait is an
external collaborator, and every claim in scope is about exact affine
arithmetic and control flow, not about floating-point rounding).

A `Node<T>` in the source is an `Rc<RefCell<NodeImpl<T>>>`: a shared handle
onto one mutable vertex record.  We model the heap of vertex records as a
total map `World : NodeId → NodeImpl` and each `Node` handle as a `NodeId`;
`Weak` back-references become `Option NodeId`.  Every operation that mutates
through `RefCell::borrow_mut` becomes an explicit `World → World` (or
`World → outcome × World`) function.  A dynamic `RefCell` double-borrow
(which panics at run time in Rust) is modelled as an explicit `panicked`
outcome where the source can reach one.

`Joint`, `Mimic`, `Range` and `JointError` live in `joint.rs` / `errors.rs`,
which are not part of the provided sources; their definitions below are
modelled from the spec (§3, §4.1, §7), as marked on each declaration.
-/

/-- Three-vector over ℚ (external nalgebra `Vector3`; renamed `Vec3` here only
because Mathlib already owns the name `Vector3`; only carried, never
computed with, in the claims in scope). -/
structure Vec3 where
  x : ℚ
  y : ℚ
  z : ℚ
deriving DecidableEq, Repr

/-- Rigid transform (external nalgebra `Isometry3`).  The claims in scope
only ever compare transforms for equality and use the identity, so the
translation/rotation payload is carried uninterpreted. -/
structure Isometry3 where
  translation : Vec3
  rotation : Vec3 × ℚ
deriving DecidableEq, Repr

/-- Model of `Isometry3::identity()`. -/
def Isometry3.identity : Isometry3 :=
  { translation := ⟨0, 0, 0⟩, rotation := (⟨0, 0, 0⟩, 1) }

/-- Modelled from the spec: `Range<T>` (joint.rs is not in src/) — an
inclusive numeric limit range for a joint position (§3 "limits: optional
inclusive numeric range constraining position"). -/
structure Range where
  min : ℚ
  max : ℚ
deriving DecidableEq, Repr

/-- Modelled from the spec: `Mimic<T>` (joint.rs is not in src/) — the affine
coupling law `child_position = a * parent_position + b` (§3). -/
structure Mimic where
  a : ℚ
  b : ℚ
deriving DecidableEq, Repr

/-- Modelled from the spec: `Mimic::mimic_position` — applies the affine law
to the driving joint's position. -/
def Mimic.mimic_position (m : Mimic) (position : ℚ) : ℚ :=
  m.a * position + m.b

/-- Modelled from the spec: `JointType<T>` (joint.rs is not in src/) —
"variant over {Fixed, Rotational(axis), Linear(axis)}; Fixed admits no
position" (§3). -/
inductive JointType where
  | Fixed : JointType
  | Rotational (axis : Vec3) : JointType
  | Linear (axis : Vec3) : JointType
deriving DecidableEq, Repr

/-- Modelled from the spec: `JointError` (errors.rs is not in src/) — the
three error kinds of §7: limit violation, joint-type violation, and the
mimic-configuration error carrying the offending parent and child joint
names plus a descriptive message. -/
inductive JointError where
  | OutOfLimitError (joint_name : String) : JointError
  | SetToFixedError (joint_name : String) : JointError
  | MimicError (from_joint to_joint message : String) : JointError
deriving DecidableEq, Repr

/-- Modelled from the spec: `Joint<T>` (joint.rs is not in src/) — name,
type, offset pre-transform, scalar position, optional inclusive limits, and
a cached optional world transform (§3). -/
structure Joint where
  name : String
  joint_type : JointType
  offset : Isometry3
  position : ℚ
  limits : Option Range
  world_transform : Option Isometry3
deriving DecidableEq, Repr

/-- Modelled from the spec: `Joint::set_position` (§4.1) — "fails with a
limit-violation error when `value` lies outside `limits` (if present), and
fails with a joint-type error when called on a Fixed joint.  On success,
stores the value and does not itself recompute `world_transform`." -/
def Joint.set_position (j : Joint) (position : ℚ) : Except JointError Joint :=
  if j.joint_type = JointType.Fixed then
    Except.error (JointError.SetToFixedError j.name)
  else
    match j.limits with
    | some range =>
      if range.min ≤ position ∧ position ≤ range.max then
        Except.ok { j with position := position }
      else
        Except.error (JointError.OutOfLimitError j.name)
    | none => Except.ok { j with position := position }

/-- Modelled from the spec: `Joint::set_position_unchecked` (§4.1) — "stores
the value without limit or type validation". -/
def Joint.set_position_unchecked (j : Joint) (position : ℚ) : Joint :=
  { j with position := position }

/-- Handle identity for a vertex record: the model of `Rc<RefCell<...>>`
pointer identity (`Node` equality in the source is pointer equality). -/
abbrev NodeId := Nat

/-- Record `NodeImpl<T>` (src/node.rs lines 31-42): the vertex record behind each
node handle.  `parent`/`mimic_parent` are `Weak` back-references, modelled
as optional ids; `children`/`mimic_children` are lists of handles. -/
structure NodeImpl where
  parent : Option NodeId
  children : List NodeId
  joint : Joint
  mimic_parent : Option NodeId
  mimic_children : List NodeId
  mimic : Option Mimic
  child_link : Option String
deriving DecidableEq, Repr

/-- The heap of vertex records: total map from handle to record. -/
def World := NodeId → NodeImpl

/-- Point update of the heap (one `RefCell` write-back). -/
def updateW (w : World) (i : NodeId) (n : NodeImpl) : World :=
  fun j => if j = i then n else w j

/-- Constructor `Node::new` (src/node.rs lines 58-68): fresh vertex wrapping one joint,
no parent, no children, no mimic relations, no link. -/
def NodeImpl.new (joint : Joint) : NodeImpl :=
  { parent := none
    children := []
    joint := joint
    mimic_parent := none
    mimic_children := []
    mimic := none
    child_link := none }

/-- Operation `Node::set_parent` (src/node.rs lines 100-103): store a back-reference
to `parent` in `self`, then push `self` onto `parent`'s children.  The two
borrows are sequential statements, so the second read sees the first write
(relevant only when `self = parent`). -/
def Node.set_parent (w : World) (self parent : NodeId) : World :=
  let w1 := updateW w self { w self with parent := some parent }
  updateW w1 parent
    { w1 parent with children := (w1 parent).children ++ [self] }

/-- Predicate `Node::is_root` (src/node.rs lines 116-118). -/
def Node.is_root (w : World) (self : NodeId) : Bool :=
  (w self).parent.isNone

/-- Predicate `Node::is_end` (src/node.rs lines 129-131). -/
def Node.is_end (w : World) (self : NodeId) : Bool :=
  (w self).children.isEmpty

/-- Operation `Node::set_mimic_parent` (src/node.rs lines 261-265): three sequential
borrow sections — store the mimic back-reference, push onto the parent's
mimic-children, store the law. -/
def Node.set_mimic_parent (w : World) (self parent : NodeId) (mimic : Mimic) :
    World :=
  let w1 := updateW w self { w self with mimic_parent := some parent }
  let w2 := updateW w1 parent
    { w1 parent with mimic_children := (w1 parent).mimic_children ++ [self] }
  updateW w2 self { w2 self with mimic := some mimic }

/-- Observable outcome of `Node::set_position`: `Ok(())`, `Err(e)`, or a
run-time panic (Rust `RefCell` dynamic-borrow failure). -/
inductive SetPosOutcome where
  | ok : SetPosOutcome
  | err (e : JointError) : SetPosOutcome
  | panicked : SetPosOutcome
deriving DecidableEq, Repr

/-- The mimic-propagation loop of `Node::set_position` (src/node.rs lines
190-210), folded over `self`'s `mimic_children`.  Throughout the loop the
`RefMut` guard `node = self.0.borrow_mut()` taken at line 185 stays alive,
so:
  * `child.0.borrow_mut()` (line 191) panics when the child handle aliases
    `self` — modelled by the `c = self` test;
  * in the `None` mimic arm, `self.joint()` (line 196) calls
    `self.0.borrow()` while that same `RefMut` is still live, which is a
    guaranteed `RefCell` double-borrow panic *before* the `MimicError` of
    lines 198-207 is constructed — modelled as `panicked`.
In the `Some` arm the child's position is set through the *checked*
`Joint::set_position` (line 194) and a failure is propagated by `?`,
keeping all updates already made (no rollback). -/
def Node.propagate (self : NodeId) (position : ℚ) :
    World → List NodeId → SetPosOutcome × World
  | w, [] => (SetPosOutcome.ok, w)
  | w, c :: rest =>
    if c = self then
      (SetPosOutcome.panicked, w)
    else
      match (w c).mimic with
      | some m =>
        match (w c).joint.set_position (m.mimic_position position) with
        | Except.ok j =>
          Node.propagate self position
            (updateW w c { w c with joint := j }) rest
        | Except.error e => (SetPosOutcome.err e, w)
      | none => (SetPosOutcome.panicked, w)

/-- Operation `Node::set_position` (src/node.rs lines 184-212): no-op success when a
mimic-parent is set; otherwise delegate to the owned joint's checked
`set_position`, then run mimic propagation over the mimic-children. -/
def Node.set_position (w : World) (self : NodeId) (position : ℚ) :
    SetPosOutcome × World :=
  let n := w self
  if n.mimic_parent.isSome then
    (SetPosOutcome.ok, w)
  else
    match n.joint.set_position position with
    | Except.error e => (SetPosOutcome.err e, w)
    | Except.ok j =>
      Node.propagate self position
        (updateW w self { n with joint := j }) n.mimic_children

/-- Operation `Node::set_position_unchecked` (src/node.rs lines 213-216). -/
def Node.set_position_unchecked (w : World) (self : NodeId) (position : ℚ) :
    World :=
  updateW w self
    { w self with joint := (w self).joint.set_position_unchecked position }

/-- Operation `Node::parent_world_transform` (src/node.rs lines 218-227): parent's
cached joint world transform, or the identity for a root.  (The `Weak`
upgrade `unwrap` cannot fail in the model: the world is total.) -/
def Node.parent_world_transform (w : World) (self : NodeId) :
    Option Isometry3 :=
  match (w self).parent with
  | some p => (w p).joint.world_transform
  | none => some Isometry3.identity

/-- Accessor `Node::world_transform` (src/node.rs lines 257-259). -/
def Node.world_transform (w : World) (self : NodeId) : Option Isometry3 :=
  (w self).joint.world_transform

/-- The `connect!` macro (src/node.rs lines 449-457), as the fold it
expands to: `connect!(x => y => rest)` runs `y.set_parent(&x)` and recurses
on `y => rest`; `connect!(x => y)` is just `y.set_parent(&x)`. -/
def connectList (w : World) : List NodeId → World
  | x :: y :: rest => connectList (Node.set_parent w y x) (y :: rest)
  | _ => w

/-! ### Concrete worlds used by witnesses and counterexamples -/

/-- A linear-axis joint with inclusive limits `[0, 2]` (the doc-example
configuration of src/node.rs lines 169-176). -/
def jLin (name : String) : Joint :=
  { name := name
    joint_type := JointType.Linear ⟨0, 0, 1⟩
    offset := Isometry3.identity
    position := 0
    limits := some ⟨0, 2⟩
    world_transform := none }

/-- A linear-axis joint with no limits. -/
def jFree (name : String) : Joint :=
  { name := name
    joint_type := JointType.Linear ⟨0, 0, 1⟩
    offset := Isometry3.identity
    position := 0
    limits := none
    world_transform := none }

/-- A linear-axis joint with tight limits `[0, 1]`. -/
def jTight (name : String) : Joint :=
  { name := name
    joint_type := JointType.Linear ⟨0, 0, 1⟩
    offset := Isometry3.identity
    position := 0
    limits := some ⟨0, 1⟩
    world_transform := none }

/-- Heap of fresh, unconnected nodes with limitless linear joints. -/
def wFresh : World := fun i =>
  if i = 0 then NodeImpl.new (jFree "n0")
  else if i = 1 then NodeImpl.new (jFree "n1")
  else if i = 2 then NodeImpl.new (jFree "n2")
  else NodeImpl.new (jFree "nx")

/-- Heap for the doc example before wiring: `j0`, `j1` linear with limits
`[0, 2]`, both at position `0`. -/
def wDoc0 : World := fun i =>
  if i = 0 then NodeImpl.new (jLin "j0")
  else if i = 1 then NodeImpl.new (jLin "j1")
  else NodeImpl.new (jLin "jx")

/-- The doc example of src/node.rs lines 167-183:
`j1.set_mimic_parent(&j0, Mimic::new(1.5, 0.1))`. -/
def wDoc : World := Node.set_mimic_parent wDoc0 1 0 ⟨3 / 2, 1 / 10⟩

/-- Driver `j0` with limits `[0, 2]`; mimic-child `j1` with tight limits
`[0, 1]` and law `(1, 0)` — the mimic target `1 * 2 + 0 = 2` violates the
child's own limits. -/
def wTight0 : World := fun i =>
  if i = 0 then NodeImpl.new (jLin "j0")
  else if i = 1 then NodeImpl.new (jTight "j1")
  else NodeImpl.new (jLin "jx")

/-- World `wTight0` after `j1.set_mimic_parent(&j0, Mimic::new(1.0, 0.0))`. -/
def wTight : World := Node.set_mimic_parent wTight0 1 0 ⟨1, 0⟩

/-- A two-level mimic chain: node 1 mimics node 0 (law `(2, 0)`), node 2
mimics node 1 (law `(3, 0)`); all joints limitless. -/
def wChain : World :=
  Node.set_mimic_parent (Node.set_mimic_parent wFresh 1 0 ⟨2, 0⟩) 2 1 ⟨3, 0⟩

/-- A driver (node 0) with two entries in `mimic_children`: node 1 carries
its mimic law, node 2 does not (its `mimic` field is `None`).  The fields of
`NodeImpl` are `pub`, so in-crate code can produce this state directly
without going through `set_mimic_parent`. -/
def wNoLaw : World := fun i =>
  if i = 0 then { NodeImpl.new (jFree "j0") with mimic_children := [1, 2] }
  else if i = 1 then
    { NodeImpl.new (jFree "j1") with
        mimic_parent := some 0
        mimic := some ⟨2, 0⟩ }
  else { NodeImpl.new (jFree "j2") with mimic_parent := some 0 }

/-- World `wFresh` after `l1.set_parent(&l0)` — used for the
`parent_world_transform` witness (node 0 is a root; node 1's parent has no
cached world transform yet). -/
def wPar : World := Node.set_parent wFresh 1 0

/-! ### Helper lemmas -/

theorem updateW_self (w : World) (i : NodeId) (n : NodeImpl) :
    updateW w i n i = n := by
  simp [updateW]

theorem updateW_ne (w : World) (i : NodeId) (n : NodeImpl) (j : NodeId)
    (h : j ≠ i) : updateW w i n j = w j := by
  simp [updateW, h]

/-- A successful checked joint set stores exactly the requested value and
changes nothing else. -/
theorem Joint.set_position_ok (j j' : Joint) (p : ℚ)
    (h : j.set_position p = Except.ok j') : j' = { j with position := p } := by
  unfold Joint.set_position at h
  split at h
  · exact absurd h (by simp)
  · split at h
    · split at h
      · exact (Except.ok.inj h).symm
      · exact absurd h (by simp)
    · exact (Except.ok.inj h).symm

/-- The propagation loop never touches a node outside the list it is
folding over. -/
theorem propagate_not_mem (s : NodeId) (p : ℚ) :
    ∀ (l : List NodeId) (w : World) (x : NodeId), x ∉ l →
      (Node.propagate s p w l).2 x = w x := by
  intro l
  induction l with
  | nil => intro w x _; rfl
  | cons c rest ih =>
    intro w x hx
    simp only [List.mem_cons, not_or] at hx
    obtain ⟨hxc, hxrest⟩ := hx
    simp only [Node.propagate]
    split
    · rfl
    · split
      · split
        · rw [ih _ x hxrest, updateW_ne _ _ _ _ hxc]
        · rfl
      · rfl

/-- The propagation loop only rewrites `joint` fields: every node's `mimic`
law is preserved. -/
theorem propagate_mimic (s : NodeId) (p : ℚ) :
    ∀ (l : List NodeId) (w : World) (x : NodeId),
      ((Node.propagate s p w l).2 x).mimic = (w x).mimic := by
  intro l
  induction l with
  | nil => intro w x; rfl
  | cons c rest ih =>
    intro w x
    simp only [Node.propagate]
    split
    · rfl
    · split
      · split
        · rw [ih]
          by_cases hxc : x = c
          · subst hxc; rw [updateW_self]
          · rw [updateW_ne _ _ _ _ hxc]
        · rfl
      · rfl

/-- If the propagation loop completes with `Ok`, the driving node itself was
never rewritten by it. -/
theorem propagate_ok_self (s : NodeId) (p : ℚ) :
    ∀ (l : List NodeId) (w w' : World),
      Node.propagate s p w l = (SetPosOutcome.ok, w') → w' s = w s := by
  intro l
  induction l with
  | nil =>
    intro w w' h
    exact congrArg (fun q => q s) (congrArg Prod.snd h).symm
  | cons c rest ih =>
    intro w w' h
    simp only [Node.propagate] at h
    split at h
    · exact absurd (congrArg Prod.fst h) (by simp)
    · rename_i hcs
      split at h
      · split at h
        · rw [ih _ _ h, updateW_ne _ _ _ _ (fun hsc => hcs hsc.symm)]
        · exact absurd (congrArg Prod.fst h) (by simp)
      · exact absurd (congrArg Prod.fst h) (by simp)

/-- If the propagation loop completes with `Ok`, every listed child that
carries a mimic law ends at exactly the affine target `a * p + b`. -/
theorem propagate_ok_position (s : NodeId) (p : ℚ) :
    ∀ (l : List NodeId) (w w' : World) (c : NodeId) (m : Mimic),
      Node.propagate s p w l = (SetPosOutcome.ok, w') →
      c ∈ l → (w c).mimic = some m →
      (w' c).joint.position = m.mimic_position p := by
  intro l
  induction l with
  | nil => intro w w' c m _ hc _; exact absurd hc (List.not_mem_nil c)
  | cons d rest ih =>
    intro w w' c m h hc hm
    simp only [Node.propagate] at h
    split at h
    · exact absurd (congrArg Prod.fst h) (by simp)
    · split at h
      · rename_i m' hdm
        split at h
        · rename_i j hj
          by_cases hcrest : c ∈ rest
          · refine ih _ _ c m h hcrest ?_
            by_cases hcd : c = d
            · subst hcd; rw [updateW_self]; exact hm
            · rw [updateW_ne _ _ _ _ hcd]; exact hm
          · have hcd : c = d := by
              rcases List.mem_cons.mp hc with h1 | h1
              · exact h1
              · exact absurd h1 hcrest
            subst hcd
            have hw' : w' c = updateW w c { w c with joint := j } c := by
              have h2 := propagate_not_mem s p rest
                (updateW w c { w c with joint := j }) c hcrest
              rw [h] at h2
              exact h2
            rw [hw', updateW_self]
            have hm2 : some m' = some m := by rw [← hdm, hm]
            rw [Joint.set_position_ok _ _ _ hj, Option.some.inj hm2]
        · exact absurd (congrArg Prod.fst h) (by simp)
      · exact absurd (congrArg Prod.fst h) (by simp)

/-! ### Shared facts about `set_parent` -/

theorem linear_ne_fixed (v : Vec3) :
    (JointType.Linear v = JointType.Fixed) = False :=
  eq_false fun h => JointType.noConfusion h

theorem set_parent_self (w : World) (a b : NodeId) (hab : a ≠ b) :
    (Node.set_parent w a b) a = { w a with parent := some b } := by
  simp only [Node.set_parent]
  rw [updateW_ne _ _ _ _ hab, updateW_self]

theorem set_parent_parent (w : World) (a b : NodeId) (hab : a ≠ b) :
    (Node.set_parent w a b) b =
      { w b with children := (w b).children ++ [a] } := by
  have hba : b ≠ a := fun h => hab h.symm
  simp only [Node.set_parent]
  rw [updateW_self, updateW_ne _ _ _ _ hba]

theorem set_parent_other (w : World) (a b x : NodeId)
    (hxa : x ≠ a) (hxb : x ≠ b) : (Node.set_parent w a b) x = w x := by
  simp only [Node.set_parent]
  rw [updateW_ne _ _ _ _ hxb, updateW_ne _ _ _ _ hxa]

/-! ### Claims -/

/-- Claim C2: for every node whose `mimic_parent` is set,
`Node::set_position(value)` returns `Ok` for every value and leaves the
entire world — in particular the node's own joint position and every other
field of the node — unchanged. -/
theorem claim_C2 (w : World) (self : NodeId) (p : ℚ)
    (h : (w self).mimic_parent.isSome = true) :
    Node.set_position w self p = (SetPosOutcome.ok, w) := by
  simp [Node.set_position, h]

theorem claim_C2_witness :
    Node.set_position wDoc 1 5 = (SetPosOutcome.ok, wDoc) :=
  claim_C2 wDoc 1 5 (by rfl)

/-- Claim C3: for distinct nodes `a ≠ b`, after `a.set_parent(&b)`:
`a.is_root()` is false, `b.children()` contains `a`, and the only fields
modified anywhere are `a`'s parent and `b`'s children (so `b`'s own parent
field, hence its root status, is unchanged, and every other node is
untouched). -/
theorem claim_C3 (w : World) (a b : NodeId) (hab : a ≠ b) :
    Node.is_root (Node.set_parent w a b) a = false ∧
    a ∈ ((Node.set_parent w a b) b).children ∧
    (Node.set_parent w a b) a = { w a with parent := some b } ∧
    (Node.set_parent w a b) b =
      { w b with children := (w b).children ++ [a] } ∧
    ∀ x, x ≠ a → x ≠ b → (Node.set_parent w a b) x = w x := by
  refine ⟨?_, ?_, set_parent_self w a b hab, set_parent_parent w a b hab,
    fun x hxa hxb => set_parent_other w a b x hxa hxb⟩
  · simp only [Node.is_root, set_parent_self w a b hab]
    rfl
  · rw [set_parent_parent w a b hab]
    simp

theorem claim_C3_witness :
    Node.is_root (Node.set_parent wFresh 0 1) 0 = false ∧
    0 ∈ ((Node.set_parent wFresh 0 1) 1).children :=
  ⟨(claim_C3 wFresh 0 1 (by decide)).1, (claim_C3 wFresh 0 1 (by decide)).2.1⟩

/-- Claim C4: `connect![n0 => n1 => n2]` expands to exactly the call
sequence `n1.set_parent(&n0); n2.set_parent(&n1)` (same resulting world),
and for fresh distinct nodes `n0.is_root()`, `!n1.is_root()`, `!n1.is_end()`
and `n2.is_end()` all hold afterwards. -/
theorem claim_C4 (w : World) (n0 n1 n2 : NodeId) (j0 j1 j2 : Joint)
    (h01 : n0 ≠ n1) (h02 : n0 ≠ n2) (h12 : n1 ≠ n2)
    (hf0 : w n0 = NodeImpl.new j0) (hf1 : w n1 = NodeImpl.new j1)
    (hf2 : w n2 = NodeImpl.new j2) :
    connectList w [n0, n1, n2] =
      Node.set_parent (Node.set_parent w n1 n0) n2 n1 ∧
    Node.is_root (connectList w [n0, n1, n2]) n0 = true ∧
    Node.is_root (connectList w [n0, n1, n2]) n1 = false ∧
    Node.is_end (connectList w [n0, n1, n2]) n1 = false ∧
    Node.is_end (connectList w [n0, n1, n2]) n2 = true := by
  have heq : connectList w [n0, n1, n2] =
      Node.set_parent (Node.set_parent w n1 n0) n2 n1 := rfl
  have h10 : n1 ≠ n0 := fun h => h01 h.symm
  have h21 : n2 ≠ n1 := fun h => h12 h.symm
  have h20 : n2 ≠ n0 := fun h => h02 h.symm
  refine ⟨heq, ?_, ?_, ?_, ?_⟩
  · rw [Node.is_root, heq,
      set_parent_other (Node.set_parent w n1 n0) n2 n1 n0 h02 h01,
      set_parent_parent w n1 n0 h10, hf0]
    rfl
  · rw [Node.is_root, heq, set_parent_parent (Node.set_parent w n1 n0) n2 n1 h21,
      set_parent_self w n1 n0 h10]
    rfl
  · rw [Node.is_end, heq, set_parent_parent (Node.set_parent w n1 n0) n2 n1 h21]
    simp
  · rw [Node.is_end, heq, set_parent_self (Node.set_parent w n1 n0) n2 n1 h21,
      set_parent_other w n1 n0 n2 h21 h20, hf2]
    rfl

theorem claim_C4_witness :
    connectList wFresh [0, 1, 2] =
      Node.set_parent (Node.set_parent wFresh 1 0) 2 1 ∧
    Node.is_root (connectList wFresh [0, 1, 2]) 0 = true ∧
    Node.is_root (connectList wFresh [0, 1, 2]) 1 = false ∧
    Node.is_end (connectList wFresh [0, 1, 2]) 1 = false ∧
    Node.is_end (connectList wFresh [0, 1, 2]) 2 = true :=
  claim_C4 wFresh 0 1 2 (jFree "n0") (jFree "n1") (jFree "n2")
    (by decide) (by decide) (by decide) rfl rfl rfl

/-- Claim C7: for a node with no mimic-parent, if the owned joint's checked
`set_position` fails, `Node::set_position` returns exactly that error and
the world is unchanged — in particular no mimic-child's position has been
modified. -/
theorem claim_C7 (w : World) (self : NodeId) (p : ℚ) (e : JointError)
    (hmp : (w self).mimic_parent = none)
    (herr : (w self).joint.set_position p = Except.error e) :
    Node.set_position w self p = (SetPosOutcome.err e, w) := by
  simp [Node.set_position, hmp, herr]

theorem claim_C7_witness :
    Node.set_position wTight 0 5 =
      (SetPosOutcome.err (JointError.OutOfLimitError "j0"), wTight) :=
  claim_C7 wTight 0 5 (JointError.OutOfLimitError "j0") (by rfl)
    (by norm_num [wTight, wTight0, Node.set_mimic_parent, updateW,
      NodeImpl.new, jLin, jTight, Joint.set_position, linear_ne_fixed])

/-- Claim C8: mimic propagation is one level deep: a successful
`n.set_position(value)` leaves every node `g` outside `n` and `n`'s own
`mimic_children` list untouched — in particular every mimic-child `g` of a
mimic-child `c` of `n` (the well-formedness of the mimic forest, §3 of the
spec, makes a mimic-grandchild distinct from `n` and from `n`'s direct
mimic-children). -/
theorem claim_C8 (w : World) (n c g : NodeId) (p : ℚ)
    (hok : (Node.set_position w n p).1 = SetPosOutcome.ok)
    (hc : c ∈ (w n).mimic_children)
    (hg : g ∈ (w c).mimic_children)
    (hgn : g ∉ (w n).mimic_children)
    (hgne : g ≠ n) :
    (Node.set_position w n p).2 g = w g := by
  by_cases hmp : (w n).mimic_parent.isSome = true
  · simp [Node.set_position, hmp]
  · cases hj : (w n).joint.set_position p with
    | error e => simp [Node.set_position, hmp, hj]
    | ok j =>
      have hspr : Node.set_position w n p =
          Node.propagate n p (updateW w n { w n with joint := j })
            (w n).mimic_children := by
        simp [Node.set_position, hmp, hj]
      rw [hspr, propagate_not_mem n p _ _ g hgn, updateW_ne _ _ _ _ hgne]

theorem claim_C8_witness :
    (Node.set_position wChain 0 1).2 2 = wChain 2 :=
  claim_C8 wChain 0 1 2 1
    (by norm_num [wChain, wFresh, Node.set_mimic_parent, updateW,
      NodeImpl.new, jFree, Node.set_position, Node.propagate,
      Joint.set_position, Mimic.mimic_position, linear_ne_fixed])
    (by decide) (by decide) (by decide) (by decide)

/-- Claim C9: `parent_world_transform()` returns `Some(identity)` for a
root, and otherwise the parent's cached joint `world_transform` (which may
be `None` when never computed). -/
theorem claim_C9 (w : World) (self : NodeId) :
    (Node.is_root w self = true →
      Node.parent_world_transform w self = some Isometry3.identity) ∧
    ∀ p, (w self).parent = some p →
      Node.parent_world_transform w self = (w p).joint.world_transform := by
  constructor
  · intro h
    have hn : (w self).parent = none := by
      simpa [Node.is_root, Option.isNone_iff_eq_none] using h
    simp [Node.parent_world_transform, hn]
  · intro p hp
    simp [Node.parent_world_transform, hp]

theorem claim_C9_witness :
    Node.parent_world_transform wPar 0 = some Isometry3.identity ∧
    Node.parent_world_transform wPar 1 = none :=
  ⟨(claim_C9 wPar 0).1 (by rfl), ((claim_C9 wPar 1).2 0 (by rfl)).trans (by rfl)⟩

/-- Claim C10: calling `set_parent` a second time with a different parent
repoints the node's parent back-reference but does not remove the node from
the previous parent's children list: afterwards the node is in both
parents' children lists. -/
theorem claim_C10 (w : World) (a b c : NodeId)
    (hab : a ≠ b) (hac : a ≠ c) (hbc : b ≠ c) :
    ((Node.set_parent (Node.set_parent w a b) a c) a).parent = some c ∧
    a ∈ ((Node.set_parent (Node.set_parent w a b) a c) b).children ∧
    a ∈ ((Node.set_parent (Node.set_parent w a b) a c) c).children := by
  have hba : b ≠ a := fun h => hab h.symm
  have hca : c ≠ a := fun h => hac h.symm
  have hcb : c ≠ b := fun h => hbc h.symm
  refine ⟨?_, ?_, ?_⟩
  · rw [set_parent_self (Node.set_parent w a b) a c hac]
  · rw [set_parent_other (Node.set_parent w a b) a c b hba hbc,
      set_parent_parent w a b hab]
    simp
  · rw [set_parent_parent (Node.set_parent w a b) a c hac,
      set_parent_other w a b c hca hcb]
    simp

theorem claim_C10_witness :
    ((Node.set_parent (Node.set_parent wFresh 0 1) 0 2) 0).parent = some 2 ∧
    0 ∈ ((Node.set_parent (Node.set_parent wFresh 0 1) 0 2) 1).children ∧
    0 ∈ ((Node.set_parent (Node.set_parent wFresh 0 1) 0 2) 2).children :=
  claim_C10 wFresh 0 1 2 (by decide) (by decide) (by decide)

/-- Claim C5: for a driver node with no mimic-parent, after a successful
`set_position(p)` every mimic-child carrying law `(a, b)` holds position
`a * p + b`, and the driver itself holds `p`. -/
theorem claim_C5 (w : World) (self c : NodeId) (m : Mimic) (p : ℚ)
    (hmp : (w self).mimic_parent = none)
    (hc : c ∈ (w self).mimic_children)
    (hm : (w c).mimic = some m)
    (hok : (Node.set_position w self p).1 = SetPosOutcome.ok) :
    ((Node.set_position w self p).2 c).joint.position = m.mimic_position p ∧
    ((Node.set_position w self p).2 self).joint.position = p := by
  cases hj : (w self).joint.set_position p with
  | error e =>
    exfalso
    have hbad : (Node.set_position w self p).1 = SetPosOutcome.err e := by
      simp [Node.set_position, hmp, hj]
    rw [hbad] at hok
    exact absurd hok (by simp)
  | ok j =>
    have hspr : Node.set_position w self p =
        Node.propagate self p (updateW w self { w self with joint := j })
          (w self).mimic_children := by
      simp [Node.set_position, hmp, hj]
    have h1 : (Node.propagate self p (updateW w self { w self with joint := j })
        (w self).mimic_children).1 = SetPosOutcome.ok := by
      rw [← hspr]
      exact hok
    have hpair : Node.propagate self p (updateW w self { w self with joint := j })
        (w self).mimic_children =
        (SetPosOutcome.ok,
         (Node.propagate self p (updateW w self { w self with joint := j })
           (w self).mimic_children).2) := Prod.ext h1 rfl
    have hm1 : ((updateW w self { w self with joint := j }) c).mimic = some m := by
      by_cases hcs : c = self
      · subst hcs
        rw [updateW_self]
        exact hm
      · rw [updateW_ne _ _ _ _ hcs]
        exact hm
    have hsnd : (Node.set_position w self p).2 =
        (Node.propagate self p (updateW w self { w self with joint := j })
          (w self).mimic_children).2 := congrArg Prod.snd hspr
    constructor
    · rw [hsnd]
      exact propagate_ok_position self p _ _ _ c m hpair hc hm1
    · rw [hsnd, propagate_ok_self self p _ _ _ hpair, updateW_self]
      rw [Joint.set_position_ok _ _ _ hj]

theorem claim_C5_witness :
    ((Node.set_position wDoc 0 1).2 1).joint.position = 1.6 ∧
    ((Node.set_position wDoc 0 1).2 0).joint.position = 1 := by
  have h := claim_C5 wDoc 0 1 ⟨3 / 2, 1 / 10⟩ 1 (by rfl) (by decide) (by rfl)
    (by norm_num [wDoc, wDoc0, Node.set_mimic_parent, updateW, NodeImpl.new,
      jLin, Node.set_position, Node.propagate, Joint.set_position,
      Mimic.mimic_position, linear_ne_fixed])
  exact ⟨h.1.trans (by norm_num [Mimic.mimic_position]), h.2⟩

/-- Claim C1 counterexample: mimic propagation does NOT bypass the
mimic-child's own limits.  In `wTight` the driver `j0` (limits `[0, 2]`)
accepts position `2`, but the mimic target `1 * 2 + 0 = 2` violates the
child `j1`'s limits `[0, 1]`: the loop at src/node.rs line 194 calls the
child's *checked* `Joint::set_position` with `?`, so the whole call fails
with the child's limit error and the child's position stays `0` instead of
being stored unchecked. -/
theorem claim_C1_counterexample :
    (wTight 0).joint.set_position 2 =
      Except.ok { (wTight 0).joint with position := 2 } ∧
    (Node.set_position wTight 0 2).1 =
      SetPosOutcome.err (JointError.OutOfLimitError "j1") ∧
    ((Node.set_position wTight 0 2).2 1).joint.position = 0 := by
  refine ⟨?_, ?_, ?_⟩ <;>
    norm_num [wTight, wTight0, Node.set_mimic_parent, updateW, NodeImpl.new,
      jLin, jTight, Node.set_position, Node.propagate, Joint.set_position,
      Mimic.mimic_position, linear_ne_fixed]

/-- Claim C1 (amended): on success of the driver's own joint update,
`Node::set_position` applies `a * value + b` to each mimic-child through
the child's own *checked* `Joint::set_position` (not the unchecked setter),
so the child's limit check is consulted: if it rejects the mimic target,
the call fails with that child's error, the driver's already-committed new
position is kept, and the failing child is left unchanged. -/
theorem claim_C1_amended (w : World) (self c : NodeId) (rest : List NodeId)
    (m : Mimic) (p : ℚ) (e : JointError)
    (hmp : (w self).mimic_parent = none)
    (hown : ∃ j, (w self).joint.set_position p = Except.ok j)
    (hl : (w self).mimic_children = c :: rest)
    (hcs : c ≠ self)
    (hm : (w c).mimic = some m)
    (hfail : (w c).joint.set_position (m.mimic_position p) = Except.error e) :
    (Node.set_position w self p).1 = SetPosOutcome.err e ∧
    ((Node.set_position w self p).2 self).joint.position = p ∧
    ((Node.set_position w self p).2 c).joint = (w c).joint := by
  obtain ⟨j, hj⟩ := hown
  have hspr : Node.set_position w self p =
      Node.propagate self p (updateW w self { w self with joint := j })
        (w self).mimic_children := by
    simp [Node.set_position, hmp, hj]
  rw [hl] at hspr
  have hstep : Node.propagate self p
      (updateW w self { w self with joint := j }) (c :: rest) =
      (SetPosOutcome.err e, updateW w self { w self with joint := j }) := by
    simp only [Node.propagate, if_neg hcs, updateW_ne _ _ _ _ hcs, hm, hfail]
  have hfst : (Node.set_position w self p).1 = SetPosOutcome.err e :=
    congrArg Prod.fst (hspr.trans hstep)
  have hsnd : (Node.set_position w self p).2 =
      updateW w self { w self with joint := j } :=
    congrArg Prod.snd (hspr.trans hstep)
  refine ⟨hfst, ?_, ?_⟩
  · rw [hsnd, updateW_self, Joint.set_position_ok _ _ _ hj]
  · rw [hsnd, updateW_ne _ _ _ _ hcs]

theorem claim_C1_witness :
    (Node.set_position wTight 0 2).1 =
      SetPosOutcome.err (JointError.OutOfLimitError "j1") ∧
    ((Node.set_position wTight 0 2).2 0).joint.position = 2 ∧
    ((Node.set_position wTight 0 2).2 1).joint = (wTight 1).joint :=
  claim_C1_amended wTight 0 1 [] ⟨1, 0⟩ 2 (JointError.OutOfLimitError "j1")
    (by rfl)
    ⟨{ (wTight 0).joint with position := 2 },
      by norm_num [wTight, wTight0, Node.set_mimic_parent, updateW,
        NodeImpl.new, jLin, jTight, Joint.set_position, linear_ne_fixed]⟩
    (by rfl) (by decide) (by rfl)
    (by norm_num [wTight, wTight0, Node.set_mimic_parent, updateW,
      NodeImpl.new, jLin, jTight, Joint.set_position, Mimic.mimic_position,
      linear_ne_fixed])

/-- Claim C6: what the code actually does on the failing input.  In
`wNoLaw`, node 2 sits in the driver's `mimic_children` without a mimic law.
The spec (and the error-construction code at src/node.rs lines 196-207)
intends `JointError::MimicError` to be returned, but `self.joint()` at line
196 calls `self.0.borrow()` while the `RefMut` taken at line 185 is still
live, so the call panics with a `RefCell` double-borrow before the error
value is built.  The earlier sibling (node 1) keeps its already-propagated
position `2 * 1 + 0 = 2`, and the driver keeps its committed position `1`. -/
theorem claim_C6_eval :
    (Node.set_position wNoLaw 0 1).1 = SetPosOutcome.panicked ∧
    ((Node.set_position wNoLaw 0 1).2 1).joint.position = 2 ∧
    ((Node.set_position wNoLaw 0 1).2 0).joint.position = 1 := by
  refine ⟨?_, ?_, ?_⟩ <;>
    norm_num [wNoLaw, NodeImpl.new, jFree, Node.set_position, Node.propagate,
      updateW, Joint.set_position, Mimic.mimic_position, linear_ne_fixed]
